import Mathlib

/-!
Verification development for the ClockInPro face-recognition core
(`server/face_recognition_service.py` and `server/simple_face_recognition.py`).

The Python code is shallowly embedded: pixel samples are natural numbers
(unsigned 8-bit values), coordinates are integers, float arithmetic is modelled
over the rationals where the source computes exactly (histograms, thresholds,
averages) and over the reals where the source takes square roots
(`np.linalg.norm`).  Fallible operations return `Option` or `Except`.
-/

/- ## Region selector padding

Embeds `detect_and_align_face`, lines 84-89 of
`server/face_recognition_service.py`:

    padding = max(20, min(w, h) // 4)
    x_pad = max(0, x - padding)
    y_pad = max(0, y - padding)
    w_pad = min(image.shape[1] - x_pad, w + 2 * padding)
    h_pad = min(image.shape[0] - y_pad, h + 2 * padding)

Python `//` is floor division, hence `Int.fdiv`. -/

structure PaddedRect where
  x : ℤ
  y : ℤ
  w : ℤ
  h : ℤ

/-- Pad a detected face rectangle `(x, y, w, h)` inside a `W`-wide, `H`-high
image, clamping to the image bounds, exactly as the source does. -/
def padRect (x y w h W H : ℤ) : PaddedRect :=
  let padding := max 20 (Int.fdiv (min w h) 4)
  let xPad := max 0 (x - padding)
  let yPad := max 0 (y - padding)
  let wPad := min (W - xPad) (w + 2 * padding)
  let hPad := min (H - yPad) (h + 2 * padding)
  ⟨xPad, yPad, wPad, hPad⟩

/- ## Detection parameter tiers

`simple_face_recognition.encode_face` (lines 52-59) tries three fixed
`detectMultiScale` parameter tuples in turn, stopping at the first non-empty
result; `face_recognition_service.detect_and_align_face` (lines 66-78) calls
the frontal and the profile cascade once each with a single tuple
`(1.05, 3, (30, 30))` and gives up immediately if the combined list is empty.
The cascade itself is an external black box, passed in as a function. -/

structure Rect where
  x : ℤ
  y : ℤ
  w : ℤ
  h : ℤ
deriving DecidableEq

structure DetectParams where
  scaleFactor : ℚ
  minNeighbors : ℕ
  minSize : ℕ × ℕ
deriving DecidableEq

def simpleTier1 : DetectParams := ⟨1.1, 3, (30, 30)⟩

def simpleTier2 : DetectParams := ⟨1.3, 5, (20, 20)⟩

def simpleTier3 : DetectParams := ⟨1.05, 2, (15, 15)⟩

def noFaceMessage : String :=
  "No face detected in image - please ensure your face is clearly visible and well-lit"

/-- Detection stage of `encode_face` (lines 52-59): try the three tiers in
order, keep the first non-empty candidate list, raise when all are empty. -/
def encode_face_detect (det : DetectParams → List Rect) : Except String (List Rect) :=
  let faces1 := det simpleTier1
  let faces2 := if faces1.length = 0 then det simpleTier2 else faces1
  let faces3 := if faces2.length = 0 then det simpleTier3 else faces2
  if faces3.length = 0 then .error noFaceMessage else .ok faces3

def alignParams : DetectParams := ⟨1.05, 3, (30, 30)⟩

/-- Detection stage of `detect_and_align_face` (lines 66-78): one frontal and
one profile cascade invocation, both with the same fixed parameters; the
function returns `(None, None)` exactly when the combined list is empty. -/
def detect_and_align_faces (frontal profile : DetectParams → List Rect) : List Rect :=
  frontal alignParams ++ profile alignParams

/-- The parameter tuples `detect_and_align_face` passes to the detector: the
literal arguments of the two `detectMultiScale` calls on lines 66-72. -/
def detect_and_align_params : List DetectParams := [alignParams, alignParams]

/- ## Local binary pattern features

Embeds `extract_lbp_features` (lines 279-300).  A grayscale image is a total
function from integer coordinates to 8-bit sample values; the extractor only
reads coordinates inside the image.  For each interior pixel the eight ring
neighbors are compared against the center (`bit = 1` iff `neighbor >= center`),
the bits are assembled most-significant-first (Python builds a string and
parses it with `int(_, 2)`), and the codes are counted into a 256-bin
histogram (`np.histogram(bins=256, range=(0, 256))` on integer samples in
`[0, 255]` counts, in bin `b`, exactly the codes equal to `b`). -/

def lbpNeighbors : List (ℤ × ℤ) :=
  [(-1, -1), (-1, 0), (-1, 1), (0, 1), (1, 1), (1, 0), (1, -1), (0, -1)]

/-- The 8-bit local binary pattern code of the pixel at `(y, x)`. -/
def lbpCode (img : ℤ → ℤ → ℕ) (y x : ℤ) : ℕ :=
  lbpNeighbors.foldl
    (fun acc d => 2 * acc + if img y x ≤ img (y + d.1) (x + d.2) then 1 else 0) 0

/-- The list of LBP codes over all interior pixels of an `hgt × wdt` image,
row-major, as accumulated in `lbp_features` (lines 285-296). -/
def extract_lbp_codes (img : ℤ → ℤ → ℕ) (hgt wdt : ℕ) : List ℕ :=
  (List.range' 1 (hgt - 2)).flatMap fun y =>
    (List.range' 1 (wdt - 2)).map fun x => lbpCode img (y : ℤ) (x : ℤ)

/-- Bin `b` of the 256-bin LBP histogram (line 299). -/
def lbp_histogram (codes : List ℕ) (b : ℕ) : ℕ := codes.count b

/-- The all-mid-gray test image from the spec scenario: every sample is 128. -/
def uniformGray : ℤ → ℤ → ℕ := fun _ _ => 128

lemma lbpCode_uniform (y x : ℤ) : lbpCode uniformGray y x = 255 := rfl

lemma map_eq_replicate {α β : Type} (c : β) :
    ∀ (l : List α) (f : α → β), (∀ a ∈ l, f a = c) → l.map f = List.replicate l.length c := by
  intro l f hf
  induction l with
  | nil => rfl
  | cons a t ih =>
      rw [List.map_cons, List.length_cons, List.replicate_succ, hf a (by simp),
        ih fun b hb => hf b (by simp [hb])]

lemma flatMap_const_replicate {α β : Type} (c : β) (n : ℕ) :
    ∀ l : List α, (l.flatMap fun _ => List.replicate n c) = List.replicate (l.length * n) c := by
  intro l
  induction l with
  | nil => simp
  | cons a t ih =>
      rw [List.flatMap_cons, ih, List.length_cons, Nat.succ_mul, Nat.add_comm,
        List.replicate_add]

lemma extract_lbp_codes_uniform :
    extract_lbp_codes uniformGray 128 128 = List.replicate 15876 255 := by
  unfold extract_lbp_codes
  have hinner : ∀ y ∈ List.range' 1 126,
      ((List.range' 1 126).map fun x => lbpCode uniformGray (y : ℤ) (x : ℤ)) =
        List.replicate 126 255 := by
    intro y _
    have := map_eq_replicate (α := ℕ) 255 (List.range' 1 126)
      (fun x => lbpCode uniformGray (y : ℤ) (x : ℤ))
      (fun x _ => lbpCode_uniform (y : ℤ) (x : ℤ))
    simpa using this
  calc (List.range' 1 (128 - 2)).flatMap
        (fun y => (List.range' 1 (128 - 2)).map fun x => lbpCode uniformGray (y : ℤ) (x : ℤ))
      = (List.range' 1 126).flatMap (fun _ => List.replicate 126 255) := by
        exact List.flatMap_congr hinner
    _ = List.replicate 15876 255 := by
        rw [flatMap_const_replicate, List.length_range']

/- ## Gradient orientation histogram (HOG) features

Embeds the descriptor layout of `extract_hog_features` (lines 313-326).  The
per-pixel gradient magnitude and orientation fields produced by the Sobel and
`atan2` stage (lines 304-311) are taken as inputs, since only the cell loop
and the fixed 9-bin histogram determine the descriptor layout.  Python's
`range(start, stop, step)` with positive step is embedded as `pyRange`;
`np.histogram(..., bins=9, range=(0, 180), weights=...)` sums, for bin `j`,
the weights of samples falling in `[20j, 20(j+1))`, the last bin being closed
at 180. -/

def pyRange (start stop step : ℕ) : List ℕ :=
  (List.range ((stop - start + step - 1) / step)).map fun i => start + i * step

/-- Weighted 9-bin orientation histogram over `(orientation, weight)` samples,
bins of width 20 over `[0, 180]`, as `np.histogram` computes it. -/
def hist9 (samples : List (ℚ × ℚ)) : List ℚ :=
  (List.range 9).map fun (j : ℕ) =>
    ((samples.filter fun s =>
        if j = 8 then decide (160 ≤ s.1 ∧ s.1 ≤ 180)
        else decide (20 * (j : ℚ) ≤ s.1 ∧ s.1 < 20 * ((j : ℚ) + 1))).map
      fun s => s.2).sum

/-- The flattened 8 × 8 cell at offset `(y, x)`: the `(orientation, magnitude)`
pairs the source passes to `np.histogram` for one cell (lines 319-323). -/
def cellSamples (mag ori : ℕ → ℕ → ℚ) (y x : ℕ) : List (ℚ × ℚ) :=
  (List.range 8).flatMap fun dy =>
    (List.range 8).map fun dx => (ori (y + dy) (x + dx), mag (y + dy) (x + dx))

/-- The HOG descriptor of an `hgt × wdt` gradient field: cell loops
`for y in range(0, hgt - 8, 8)` and `for x in range(0, wdt - 8, 8)`, one
9-entry histogram per cell, concatenated row-major (lines 313-326). -/
def extract_hog_features (mag ori : ℕ → ℕ → ℚ) (hgt wdt : ℕ) : List ℚ :=
  (pyRange 0 (hgt - 8) 8).flatMap fun y =>
    (pyRange 0 (wdt - 8) 8).flatMap fun x => hist9 (cellSamples mag ori y x)

lemma hist9_length (samples : List (ℚ × ℚ)) : (hist9 samples).length = 9 := by
  rw [hist9, List.length_map, List.length_range]

lemma flatMap_length_const {α β : Type} (n : ℕ) :
    ∀ (l : List α) (f : α → List β), (∀ a ∈ l, (f a).length = n) →
      (l.flatMap f).length = l.length * n := by
  intro l f hf
  induction l with
  | nil => simp
  | cons a t ih =>
      rw [List.flatMap_cons, List.length_append, hf a (by simp),
        ih fun b hb => hf b (by simp [hb]), List.length_cons, Nat.succ_mul, Nat.add_comm]

lemma extract_hog_length (mag ori : ℕ → ℕ → ℚ) :
    (extract_hog_features mag ori 128 128).length = 2025 := by
  have hrange : (pyRange 0 (128 - 8) 8).length = 15 := by
    simp [pyRange]
  unfold extract_hog_features
  rw [flatMap_length_const 135 _ _ ?_, hrange]
  intro y _
  rw [flatMap_length_const 9 _ _ fun x _ => hist9_length (cellSamples mag ori y x), hrange]

/- ## Signature builder and normalization

`generate_robust_encoding` (lines 128-149) builds the signature by
concatenating the four extractor outputs into one list and returns that list
as-is; no normalization step exists on that path.  The simple variant
`encode_face` (`simple_face_recognition.py`, lines 69-76) flattens the face
crop and divides by the Euclidean norm when it is positive, returning the
vector unchanged otherwise.  `np.linalg.norm` is the square root of the sum
of squares. -/

/-- Signature assembly of `generate_robust_encoding` (lines 129-149): the four
`encodings.extend(...)` calls amount to list concatenation, returned without
further processing. -/
def build_signature (lbp hog gabor pca : List ℝ) : List ℝ :=
  lbp ++ hog ++ gabor ++ pca

/-- Euclidean norm of a vector, `np.linalg.norm`. -/
noncomputable def l2norm (v : List ℝ) : ℝ :=
  Real.sqrt (v.map fun a => a ^ 2).sum

open Classical in
/-- Normalization step of `encode_face` (lines 72-74): divide by the norm when
it is positive, otherwise leave the vector unchanged. -/
noncomputable def normalize_encoding (v : List ℝ) : List ℝ :=
  if 0 < l2norm v then v.map fun a => a / l2norm v else v

lemma sumSq_nonneg (v : List ℝ) : 0 ≤ (v.map fun a => a ^ 2).sum := by
  induction v with
  | nil => simp
  | cons a t ih =>
      simp only [List.map_cons, List.sum_cons]
      exact add_nonneg (sq_nonneg a) ih

lemma sumSq_map_div (v : List ℝ) (s : ℝ) :
    ((v.map fun a => a / s).map fun a => a ^ 2).sum = (v.map fun a => a ^ 2).sum / s ^ 2 := by
  induction v with
  | nil => simp
  | cons a t ih =>
      simp only [List.map_cons, List.sum_cons, ih, div_pow]
      rw [add_div]

lemma l2norm_normalize (v : List ℝ) (hv : l2norm v ≠ 0) :
    l2norm (normalize_encoding v) = 1 := by
  have hpos : 0 < l2norm v :=
    lt_of_le_of_ne (Real.sqrt_nonneg _) (Ne.symm hv)
  have hsum : 0 ≤ (v.map fun a => a ^ 2).sum := sumSq_nonneg v
  have hsq : l2norm v ^ 2 = (v.map fun a => a ^ 2).sum := Real.sq_sqrt hsum
  have hne : (v.map fun a => a ^ 2).sum ≠ 0 := by
    intro h0
    exact hv (by simp [l2norm, h0])
  rw [normalize_encoding, if_pos hpos, l2norm, sumSq_map_div, hsq, div_self hne,
    Real.sqrt_one]

/- ## Matcher

Embeds `compare_faces_with_distance` (lines 200-277).  The body first
converts the stored encoding, encodes the probe image, and returns a fixed
sentinel result when that encoding fails; any exception raised inside the
body is caught by the trailing `except` and mapped to the same sentinel.  On
success both encodings are silently cut to the shorter length (lines
219-221), three distance metrics are combined, and an adaptive tolerance
decides the match.  The unguarded cosine division `1 - dot / (norm * norm)`
(lines 225-227) is modelled as `Option`: when the divisor is exactly zero the
source performs an IEEE division by zero (numpy yields `nan` or `inf`, not a
real number), which this real-valued model renders as `none`. -/

structure DistanceComponents where
  euclidean : ℝ
  cosine : ℝ
  manhattan : ℝ

inductive CompareDetails where
  | failure (error : String)
  | success (toleranceUsed : ℝ) (components : DistanceComponents)
      (captureConfidence : ℝ) (encodingQuality : String)

structure CompareOutput where
  isMatch : Bool
  distance : ℝ
  confidence : ℝ
  details : CompareDetails

/-- Elementwise difference of two vectors, `a - b` on numpy arrays. -/
def subl (a b : List ℝ) : List ℝ := List.zipWith (fun u v => u - v) a b

/-- Dot product, `np.dot` on equal-length vectors. -/
def dotl (a b : List ℝ) : ℝ := (List.zipWith (fun u v => u * v) a b).sum

/-- Manhattan distance, `np.sum(np.abs(a - b))` (line 228). -/
noncomputable def manhattanDist (a b : List ℝ) : ℝ :=
  ((subl a b).map fun u => |u|).sum

open Classical in
/-- Adaptive tolerance (lines 243-247): scale the base tolerance by 1.1 when
the capture confidence exceeds 80, by 0.9 when it is below 60, else keep it. -/
noncomputable def adaptive_tolerance (T conf : ℝ) : ℝ :=
  if 80 < conf then T * 1.1 else if conf < 60 then T * 0.9 else T

open Classical in
/-- Encoding-quality label attached to the result details (line 267). -/
noncomputable def encoding_quality (conf : ℝ) : String :=
  if 70 < conf then "high" else if 50 < conf then "medium" else "low"

open Classical in
/-- Distance computation and decision of `compare_faces_with_distance` on a
successfully encoded probe (lines 216-269).  `conf` is the capture confidence
of the probe, `T` the base tolerance. -/
noncomputable def compare_core (known captured : List ℝ) (conf T : ℝ) :
    Option CompareOutput :=
  let m := min known.length captured.length
  let k := known.take m
  let c := captured.take m
  let euclideanDist := l2norm (subl k c)
  let denom := l2norm k * l2norm c
  if denom = 0 then none
  else
    let cosineDist := 1 - dotl k c / denom
    let manhattan := manhattanDist k c
    let euclideanNorm := euclideanDist / Real.sqrt (m : ℝ)
    let manhattanNorm := manhattan / (m : ℝ)
    let combined := euclideanNorm * 0.4 + cosineDist * 0.4 + manhattanNorm * 0.2
    let tol := adaptive_tolerance T conf
    let confOut := max 0 (min 100 ((1 - combined / 1) * 100))
    some ⟨decide (combined ≤ tol), combined, confOut,
      .success tol ⟨euclideanNorm, cosineDist, manhattanNorm⟩ conf
        (encoding_quality conf)⟩

/-- Outcome of `generate_robust_encoding` on the probe image: a successful
encoding with its capture confidence, or a failure with error details. -/
inductive CaptureOutcome where
  | ok (encoding : List ℝ) (confidence : ℝ)
  | failed (error : String)

/-- What happened while `compare_faces_with_distance` ran: the probe capture
completed with some outcome, or an exception was raised inside the body and
caught by the trailing `except` handler (lines 271-277). -/
inductive CompareEvent where
  | captured (outcome : CaptureOutcome)
  | raised (message : String)

/-- Full `compare_faces_with_distance` (lines 200-277): capture failures
(lines 208-214) and caught exceptions (lines 271-277) both return the fixed
sentinel `match=False, distance=1.0, confidence=0.0` with the error in the
details; a successful capture proceeds to the distance computation. -/
noncomputable def compare_faces_with_distance (T : ℝ) (known : List ℝ)
    (ev : CompareEvent) : Option CompareOutput :=
  match ev with
  | .raised msg => some ⟨false, 1, 0, .failure msg⟩
  | .captured (.failed err) => some ⟨false, 1, 0, .failure err⟩
  | .captured (.ok enc conf) => compare_core known enc conf T

/- ## Aggregator

Embeds `generate_multiple_encodings` (lines 390-431).  The per-image encoding
outcomes are the inputs (each `generate_robust_encoding` call yields either a
signature or a failure); the aggregator keeps the successful ones in order,
fails only when none succeeded, and otherwise returns the element-wise
arithmetic mean (`np.mean(..., axis=0)`) together with the attempt count, the
success count and a qualitative tag.  Signatures are exact rational vectors
here since the mean involves no roots. -/

/-- Quality tag of line 429: `excellent` for at least 3 successes, `good` for
at least 2, otherwise `acceptable`. -/
def quality_tag (n : ℕ) : String :=
  if 3 ≤ n then "excellent" else if 2 ≤ n then "good" else "acceptable"

/-- Element-wise mean of a non-empty batch of equal-length signatures,
`np.mean(encodings_array, axis=0)` (line 420). -/
def mean_encoding (encs : List (List ℚ)) : List ℚ :=
  (List.range (encs.headD []).length).map fun i =>
    (encs.map fun e => e.getD i 0).sum / (encs.length : ℚ)

structure MultiEncodeResult where
  encodings : List (List ℚ)
  averageEncoding : List ℚ
  totalAttempts : ℕ
  successfulEncodings : ℕ
  encodingQuality : String
deriving DecidableEq

/-- Aggregation of `generate_multiple_encodings` (lines 401-431) over the list
of per-image encoding outcomes. -/
def generate_multiple_encodings (results : List (Option (List ℚ))) :
    Option MultiEncodeResult :=
  let encs := results.filterMap id
  if encs.length = 0 then none
  else some ⟨encs, mean_encoding encs, results.length, encs.length,
    quality_tag encs.length⟩

/- ## Claim theorems -/

/-- C9: for every detected face rectangle `(x, y, w, h)` in a `W`-wide,
`H`-high image, the padded-and-clamped rectangle produced by
`detect_and_align_face` satisfies the bounds invariant `x >= 0`, `y >= 0`,
`x + width <= W`, `y + height <= H`, so the crop never reads outside the
source buffer.  The invariant holds for arbitrary integer inputs. -/
theorem C9_pad_bounds (x y w h W H : ℤ) :
    0 ≤ (padRect x y w h W H).x ∧ 0 ≤ (padRect x y w h W H).y ∧
    (padRect x y w h W H).x + (padRect x y w h W H).w ≤ W ∧
    (padRect x y w h W H).y + (padRect x y w h W H).h ≤ H := by
  unfold padRect
  refine ⟨le_max_left 0 _, le_max_left 0 _, ?_, ?_⟩
  · have hmin := min_le_left (W - max 0 (x - max 20 (Int.fdiv (min w h) 4)))
      (w + 2 * max 20 (Int.fdiv (min w h) 4))
    linarith
  · have hmin := min_le_left (H - max 0 (y - max 20 (Int.fdiv (min w h) 4)))
      (h + 2 * max 20 (Int.fdiv (min w h) 4))
    linarith

/-- C10: whenever the compare operation fails — the probe encoding was
unsuccessful, or an exception was raised during the comparison and caught by
the trailing handler — it returns the structured sentinel
`match = false, distance = 1.0, confidence = 0.0` with the error reason in the
details, instead of raising out of the operation. -/
theorem C10_failure_sentinel (T : ℝ) (known : List ℝ) (err msg : String) :
    compare_faces_with_distance T known (.captured (.failed err)) =
      some ⟨false, 1, 0, .failure err⟩ ∧
    compare_faces_with_distance T known (.raised msg) =
      some ⟨false, 1, 0, .failure msg⟩ :=
  ⟨rfl, rfl⟩

/-- C3 counterexample: on the all-mid-gray 128 x 128 sample, bin 0 of the
local texture histogram is empty although all 126 x 126 interior codes exist,
refuting the claim that every interior-pixel code lands in bin 0. -/
theorem C3_counterexample :
    lbp_histogram (extract_lbp_codes uniformGray 128 128) 0 = 0 ∧
    (extract_lbp_codes uniformGray 128 128).length = 15876 := by
  rw [extract_lbp_codes_uniform]
  constructor
  · rw [lbp_histogram, List.count_replicate]
    simp
  · exact List.length_replicate 15876 255

/-- C3 amended: on a uniformly mid-gray (value 128) 128 x 128 sample every
interior-pixel code lands in bin 255, because each of the 8 comparisons uses
`bit = 1` iff `neighbor >= center` and all neighbors equal the center, giving
code 11111111 in binary; every other bin is zero. -/
theorem C3_lbp_bin255 (b : ℕ) :
    lbp_histogram (extract_lbp_codes uniformGray 128 128) b =
      if b = 255 then 15876 else 0 := by
  rw [extract_lbp_codes_uniform, lbp_histogram, List.count_replicate]
  simp only [beq_iff_eq]
  by_cases hb : b = 255
  · rw [if_pos hb.symm, if_pos hb]
  · rw [if_neg (fun h => hb h.symm), if_neg hb]

/-- C4 counterexample: on a concrete 128 x 128 gradient field the gradient
orientation histogram has 2025 entries, not the claimed 9 x 16 x 16 = 2304. -/
theorem C4_counterexample :
    (extract_hog_features (fun _ _ => 0) (fun _ _ => 0) 128 128).length = 2025 ∧
    (extract_hog_features (fun _ _ => 0) (fun _ _ => 0) 128 128).length ≠ 2304 := by
  refine ⟨extract_hog_length _ _, ?_⟩
  rw [extract_hog_length]
  decide

/-- C4 amended: for every 128 x 128 gradient field the gradient orientation
histogram outputs exactly 9 x 15 x 15 = 2025 floats: the loop
`range(0, 128 - 8, 8)` enumerates only 15 cell offsets per axis, excluding
the final row and column of 8 x 8 cells. -/
theorem C4_hog_length (mag ori : ℕ → ℕ → ℚ) :
    (extract_hog_features mag ori 128 128).length = 2025 :=
  extract_hog_length mag ori

/-- C7 counterexample: the robust encoder's detection stage invokes the
detector with a single parameterization (used for both cascades), not with
three progressively more permissive ones, and it declares failure as soon as
that single attempt returns no candidates. -/
theorem C7_counterexample :
    detect_and_align_faces (fun _ => []) (fun _ => []) = [] ∧
    ¬ ∃ p1 p2 p3, p1 ∈ detect_and_align_params ∧ p2 ∈ detect_and_align_params ∧
      p3 ∈ detect_and_align_params ∧ p1 ≠ p2 ∧ p1 ≠ p3 ∧ p2 ≠ p3 := by
  refine ⟨rfl, ?_⟩
  rintro ⟨p1, p2, p3, h1, h2, h3, h12, h13, h23⟩
  simp [detect_and_align_params] at h1 h2
  exact h12 (h1.trans h2.symm)

/-- C7 amended: the simple encoder tries exactly the three fixed
parameterizations (1.1, 3, 30x30), (1.3, 5, 20x20), (1.05, 2, 15x15) — not
monotonically more permissive, since the second tier raises the
minimum-neighbor requirement from 3 to 5 — and fails if and only if all three
return zero candidates; the robust encoder's detection stage invokes the
frontal and profile cascades once each with the single parameterization
(1.05, 3, 30x30) and fails exactly when their combined candidate list is
empty. -/
theorem C7_detection_tiers :
    (∀ det : DetectParams → List Rect,
      (encode_face_detect det = .error noFaceMessage ↔
        det simpleTier1 = [] ∧ det simpleTier2 = [] ∧ det simpleTier3 = [])) ∧
    simpleTier1.minNeighbors = 3 ∧ simpleTier2.minNeighbors = 5 ∧
    detect_and_align_params = [alignParams, alignParams] ∧
    (∀ frontal profile : DetectParams → List Rect,
      (detect_and_align_faces frontal profile = [] ↔
        frontal alignParams = [] ∧ profile alignParams = [])) := by
  refine ⟨?_, rfl, rfl, rfl, ?_⟩
  · intro det
    unfold encode_face_detect
    rcases h1 : det simpleTier1 with _ | ⟨r1, t1⟩
    · rcases h2 : det simpleTier2 with _ | ⟨r2, t2⟩
      · rcases h3 : det simpleTier3 with _ | ⟨r3, t3⟩ <;> simp [h2, h3]
      · simp [h2]
    · simp [h1]
  · intro frontal profile
    unfold detect_and_align_faces
    exact List.append_eq_nil

/-- The concrete result of comparing the single-entry signatures `[1]` and
`[1]` at capture confidence 70 and base tolerance 1/2: a perfect match at
distance zero. -/
noncomputable def out6 : CompareOutput :=
  ⟨true, 0, 100, .success (1/2) ⟨0, 0, 0⟩ 70 "medium"⟩

lemma compare_core_unit_eval (known captured : List ℝ)
    (hk : known.take (min known.length captured.length) = [1])
    (hc : captured.take (min known.length captured.length) = [1]) :
    compare_core known captured 70 (1/2) = some out6 := by
  have h1 : l2norm [(1:ℝ)] = 1 := by
    simp [l2norm]
  have h0 : subl [(1:ℝ)] [1] = [0] := by
    norm_num [subl]
  have h0n : l2norm [(0:ℝ)] = 0 := by
    norm_num [l2norm]
  have hdot : dotl [(1:ℝ)] [1] = 1 := by
    norm_num [dotl]
  have hman : manhattanDist [(1:ℝ)] [1] = 0 := by
    norm_num [manhattanDist, subl]
  simp only [compare_core, hk, hc, h1, h0, h0n, hdot, hman]
  norm_num [adaptive_tolerance, encoding_quality, out6, decide_eq_true_iff,
    min_def, max_def]

/-- C1 counterexample: the stored signature `[1, 0, 0]` and the probe
signature `[1]` have different lengths, yet the compare operation does not
fail: it silently truncates both to the shorter length and reports a perfect
match at distance zero. -/
theorem C1_counterexample :
    ([1, 0, 0] : List ℝ).length ≠ ([1] : List ℝ).length ∧
    compare_core [1, 0, 0] [1] 70 (1/2) = some out6 :=
  ⟨by simp, compare_core_unit_eval [1, 0, 0] [1] rfl rfl⟩

/-- C1 amended: when the stored and probe signature lengths differ the compare
operation raises no `LengthMismatch`; it silently truncates both signatures to
the shorter length, so the result always equals the comparison of the two
truncated signatures. -/
theorem C1_truncation (known captured : List ℝ) (conf T : ℝ) :
    compare_core known captured conf T =
      compare_core (known.take (min known.length captured.length))
        (captured.take (min known.length captured.length)) conf T := by
  have hlen : min (known.take (min known.length captured.length)).length
      (captured.take (min known.length captured.length)).length =
      min known.length captured.length := by
    simp only [List.length_take]
    omega
  simp only [compare_core, hlen, List.take_take, min_self]

/-- C5: the code performs the cosine division unguarded; when either signature
has Euclidean norm exactly zero the divisor is zero and the result is not the
real number 1 — the model yields `none` where numpy produces `nan`/`inf`. -/
theorem C5_cosine_zero_divisor :
    l2norm [(0:ℝ)] = 0 ∧ compare_core [(0:ℝ)] [1] 70 (1/2) = none := by
  have h0 : l2norm [(0:ℝ)] = 0 := by norm_num [l2norm]
  have harg : ([(0:ℝ)]).take (min ([(0:ℝ)]).length ([(1:ℝ)]).length) = [0] := rfl
  have harg2 : ([(1:ℝ)]).take (min ([(0:ℝ)]).length ([(1:ℝ)]).length) = [1] := rfl
  refine ⟨h0, ?_⟩
  simp [compare_core, harg, harg2, h0]

/-- C6: whenever the distance computation completes, the tolerance recorded in
the result is the base tolerance scaled by 1.1 for capture confidence above
80, by 0.9 below 60, unchanged otherwise, and the match decision is exactly
`combinedDistance <= adaptiveTolerance`. -/
theorem C6_adaptive_tolerance (known captured : List ℝ) (conf T : ℝ)
    (r : CompareOutput) (h : compare_core known captured conf T = some r) :
    (r.isMatch = true ↔ r.distance ≤ adaptive_tolerance T conf) ∧
    (80 < conf → adaptive_tolerance T conf = T * 1.1) ∧
    (conf < 60 → adaptive_tolerance T conf = T * 0.9) ∧
    (60 ≤ conf → conf ≤ 80 → adaptive_tolerance T conf = T) := by
  refine ⟨?_, ?_, ?_, ?_⟩
  · simp only [compare_core] at h
    split at h
    · exact absurd h (by simp)
    · rw [Option.some.injEq] at h
      subst h
      exact decide_eq_true_iff
  · intro h80
    rw [adaptive_tolerance, if_pos h80]
  · intro h60
    rw [adaptive_tolerance, if_neg (by linarith), if_pos h60]
  · intro hlo hhi
    rw [adaptive_tolerance, if_neg (by linarith), if_neg (by linarith)]

/-- C6 witness: the comparison of `[1]` against `[1]` at confidence 70 and
base tolerance 1/2 completes, and its decision satisfies the tolerance
characterization. -/
theorem C6_adaptive_tolerance_witness :
    compare_core [(1:ℝ)] [1] 70 (1/2) = some out6 ∧
    (out6.isMatch = true ↔ out6.distance ≤ adaptive_tolerance (1/2) 70) := by
  have h := compare_core_unit_eval [(1:ℝ)] [1] rfl rfl
  exact ⟨h, (C6_adaptive_tolerance [(1:ℝ)] [1] 70 (1/2) out6 h).1⟩

/-- C2 counterexample: the robust signature builder applied to the extractor
outputs `[2]`, `[]`, `[]`, `[]` returns the bare concatenation `[2]`, which is
not the vector divided by its Euclidean norm (that would be `[1]`), although
the norm is neither zero nor one. -/
theorem C2_counterexample :
    build_signature [(2:ℝ)] [] [] [] = [2] ∧
    normalize_encoding [(2:ℝ)] = [1] ∧ ([2] : List ℝ) ≠ [1] := by
  have h2 : l2norm [(2:ℝ)] = 2 := by
    have hs : ((([(2:ℝ)]).map fun a => a ^ 2).sum) = 2 ^ 2 := by norm_num
    rw [l2norm, hs, Real.sqrt_sq (by norm_num : (0:ℝ) ≤ 2)]
  refine ⟨rfl, ?_, by simp⟩
  rw [normalize_encoding, if_pos (by rw [h2]; norm_num), h2]
  norm_num

/-- C2 amended: the robust signature builder returns the plain concatenation
of the four extractor outputs with no normalization; only the simple-variant
encoder normalizes, dividing by the Euclidean norm when it is nonzero (the
result then has unit norm) and returning the vector unchanged when the norm
is exactly zero. -/
theorem C2_normalization :
    (∀ lbp hog gabor pca : List ℝ,
      build_signature lbp hog gabor pca = lbp ++ hog ++ gabor ++ pca) ∧
    (∀ v : List ℝ, l2norm v = 0 → normalize_encoding v = v) ∧
    (∀ v : List ℝ, l2norm v ≠ 0 → l2norm (normalize_encoding v) = 1) := by
  refine ⟨fun _ _ _ _ => rfl, ?_, l2norm_normalize⟩
  intro v hv
  rw [normalize_encoding, if_neg]
  rw [hv]
  exact lt_irrefl 0

/-- C2 witness: the vector `[2]` has nonzero norm and its normalization has
unit norm. -/
theorem C2_normalization_witness :
    l2norm [(2:ℝ)] ≠ 0 ∧ l2norm (normalize_encoding [(2:ℝ)]) = 1 := by
  have hpos : (0:ℝ) < l2norm [(2:ℝ)] := by
    rw [l2norm]
    apply Real.sqrt_pos.mpr
    norm_num
  exact ⟨ne_of_gt hpos, C2_normalization.2.2 [(2:ℝ)] (ne_of_gt hpos)⟩

lemma getD_map_range {β : Type} (f : ℕ → β) (n i : ℕ) (d : β) (hi : i < n) :
    ((List.range n).map f).getD i d = f i := by
  rw [List.getD_eq_getElem?_getD, List.getElem?_map, List.getElem?_range hi]
  rfl

/-- C8: on a non-empty batch of encoding attempts the aggregator fails if and
only if every attempt failed; otherwise it reports the number of successes and
the total attempts, tags the quality `excellent` for at least 3 successes,
`good` for exactly 2 and `acceptable` for exactly 1, and returns the
element-wise arithmetic mean of the successful signatures. -/
theorem C8_aggregator (results : List (Option (List ℚ))) (hr : results ≠ []) :
    (generate_multiple_encodings results = none ↔ ∀ r ∈ results, r = none) ∧
    (∀ out, generate_multiple_encodings results = some out →
      out.successfulEncodings = (results.filterMap id).length ∧
      out.totalAttempts = results.length ∧
      (3 ≤ out.successfulEncodings → out.encodingQuality = "excellent") ∧
      (out.successfulEncodings = 2 → out.encodingQuality = "good") ∧
      (out.successfulEncodings = 1 → out.encodingQuality = "acceptable") ∧
      ∀ L, (∀ e ∈ results.filterMap id, e.length = L) →
        out.averageEncoding.length = L ∧
        ∀ i, i < L → out.averageEncoding.getD i 0 =
          ((results.filterMap id).map fun e => e.getD i 0).sum /
            ((results.filterMap id).length : ℚ)) := by
  constructor
  · constructor
    · intro hnone r hrr
      by_cases hc : (results.filterMap id).length = 0
      · exact List.filterMap_eq_nil_iff.mp (List.length_eq_zero.mp hc) r hrr
      · exfalso
        unfold generate_multiple_encodings at hnone
        rw [if_neg hc] at hnone
        exact Option.noConfusion hnone
    · intro hall
      unfold generate_multiple_encodings
      rw [if_pos]
      rw [List.length_eq_zero, List.filterMap_eq_nil_iff]
      exact fun a ha => hall a ha
  · intro out hout
    unfold generate_multiple_encodings at hout
    by_cases hc : (results.filterMap id).length = 0
    · rw [if_pos hc] at hout
      exact absurd hout (by simp)
    · rw [if_neg hc, Option.some.injEq] at hout
      subst hout
      refine ⟨rfl, rfl, ?_, ?_, ?_, ?_⟩
      · intro h3
        show quality_tag (results.filterMap id).length = "excellent"
        rw [quality_tag, if_pos h3]
      · intro h2
        show quality_tag (results.filterMap id).length = "good"
        have h2' : (results.filterMap id).length = 2 := h2
        rw [quality_tag, if_neg (by omega), if_pos (by omega)]
      · intro h1
        show quality_tag (results.filterMap id).length = "acceptable"
        have h1' : (results.filterMap id).length = 1 := h1
        rw [quality_tag, if_neg (by omega), if_neg (by omega)]
      · intro L hL
        have hhead : ((results.filterMap id).headD []).length = L := by
          rcases hE : results.filterMap id with _ | ⟨e0, es⟩
          · exact absurd (by rw [hE]; rfl) hc
          · exact hL e0 (by rw [hE]; exact List.mem_cons_self e0 es)
        constructor
        · show (mean_encoding (results.filterMap id)).length = L
          rw [mean_encoding, List.length_map, List.length_range, hhead]
        · intro i hi
          show (mean_encoding (results.filterMap id)).getD i 0 = _
          rw [mean_encoding, getD_map_range _ _ _ _ (by rw [hhead]; exact hi)]

/-- The concrete enrollment batch from the spec scenario: four attempts, one
of which fails. -/
def sampleBatch : List (Option (List ℚ)) :=
  [some [1, 2], some [3, 4], some [5, 6], none]

/-- The aggregator's result on `sampleBatch`. -/
def out4 : MultiEncodeResult :=
  ⟨[[1, 2], [3, 4], [5, 6]], [3, 4], 4, 3, "excellent"⟩

/-- C8 witness: four attempts with exactly one failure yield three successful
encodings tagged `excellent`, and the average signature is the element-wise
mean. -/
theorem C8_aggregator_witness :
    sampleBatch ≠ [] ∧
    generate_multiple_encodings sampleBatch = some out4 ∧
    out4.successfulEncodings = 3 ∧ out4.encodingQuality = "excellent" ∧
    out4.averageEncoding.getD 0 0 =
      ((sampleBatch.filterMap id).map fun e => e.getD 0 0).sum /
        ((sampleBatch.filterMap id).length : ℚ) := by
  have hne : sampleBatch ≠ [] := by simp [sampleBatch]
  have hencs : sampleBatch.filterMap id = [[(1:ℚ), 2], [3, 4], [5, 6]] := rfl
  have hmean : mean_encoding [[(1:ℚ), 2], [3, 4], [5, 6]] = [3, 4] := by
    rw [mean_encoding]
    rw [show List.range ([[(1:ℚ), 2], [3, 4], [5, 6]].headD []).length = [0, 1] from rfl]
    simp only [List.map_cons, List.map_nil, List.sum_cons, List.sum_nil, List.getD,
      List.length_cons, List.length_nil]
    norm_num
  have hsome : generate_multiple_encodings sampleBatch = some out4 := by
    unfold generate_multiple_encodings
    rw [hencs, if_neg (by decide), Option.some.injEq, hmean]
    rfl
  have h := (C8_aggregator sampleBatch hne).2 out4 hsome
  refine ⟨hne, hsome, h.1.trans (by rw [hencs]; rfl), h.2.2.1 (by rw [h.1, hencs]; decide), ?_⟩
  have hmeanpart := (h.2.2.2.2.2 2 ?_).2 0 (by norm_num)
  · exact hmeanpart
  · intro e he
    rw [hencs] at he
    simp only [List.mem_cons, List.not_mem_nil, or_false] at he
    rcases he with rfl | rfl | rfl <;> rfl
